import Mathlib

/-!
Verification of the appointment-booking scheduler.

Time is modelled in whole minutes: an absolute instant is a `Nat` counting
minutes since an epoch, a calendar date is `t / 1440` (minutes per day), and
a clock time of day is `t % 1440`.  Scores are exact rationals `ℚ`, standing
for the Python floats (all scores arising here are exact in binary-free
rational arithmetic, so the translation is faithful for the comparisons the
code performs).
-/

namespace Scheduler

/-- Minutes in a day. -/
def minutesPerDay : Nat := 1440

/-- Calendar date (day index) of an absolute time in minutes. -/
def dateOf (t : Nat) : Nat := t / minutesPerDay

/-- Clock time (minutes after midnight) of an absolute time. -/
def clockOf (t : Nat) : Nat := t % minutesPerDay

/-- An entry of `provider_schedule` as consumed by `get_available_slots`:
a dict with `start_time`, `end_time` and `is_available`. -/
structure ScheduleWindow where
  start_time : Nat
  end_time : Nat
  is_available : Bool
deriving DecidableEq, Repr

/-- A slot dict as built by `get_available_slots` and later annotated in
place by `rank_slots` (key `score`) and `suggest_alternative_slots`
(key `alternative_score`); a missing key is `none`. -/
structure SlotDict where
  start_time : Nat
  end_time : Nat
  duration : Nat
  score : Option ℚ := none
  alternative_score : Option ℚ := none
deriving DecidableEq, Repr

/-- The inner loop of `get_available_slots` for one schedule window:
`num_possible_appointments = int(slot_duration / duration_minutes)` pieces,
the `i`-th starting at `slot_start + i * duration_minutes`, kept only if it
ends no later than the window does. -/
def slots_of_window (w : ScheduleWindow) (duration_minutes : Nat) : List SlotDict :=
  let slot_duration := w.end_time - w.start_time
  let num_possible_appointments := slot_duration / duration_minutes
  (List.range num_possible_appointments).filterMap fun i =>
    let appointment_start := w.start_time + i * duration_minutes
    let appointment_end := appointment_start + duration_minutes
    if appointment_end ≤ w.end_time then
      some { start_time := appointment_start, end_time := appointment_end,
             duration := duration_minutes }
    else none

/-- `SchedulingAgent.get_available_slots`: derive bookable slots from the
provider schedule, considering only windows that are available and start
strictly after `current_time`. -/
def get_available_slots (provider_schedule : List ScheduleWindow)
    (current_time : Nat) (duration_minutes : Nat) : List SlotDict :=
  (provider_schedule.map fun w =>
    if w.is_available ∧ current_time < w.start_time then
      slots_of_window w duration_minutes
    else []).flatten

/-- Half-open interval overlap, as in `SchedulingAgent._check_overlap`. -/
def slots_overlap (a b : SlotDict) : Prop :=
  a.start_time < b.end_time ∧ b.start_time < a.end_time

instance (a b : SlotDict) : Decidable (slots_overlap a b) := by
  unfold slots_overlap; exact inferInstance

/-- Helper: a `filterMap` whose guard holds everywhere is a `map`. -/
theorem filterMap_if_all {α β : Type} (p : α → Prop) [DecidablePred p]
    (f : α → β) (l : List α) (h : ∀ a ∈ l, p a) :
    (l.filterMap fun a => if p a then some (f a) else none) = l.map f := by
  induction l with
  | nil => rfl
  | cons a t ih =>
    rw [List.filterMap_cons, List.map_cons, if_pos (h a (List.mem_cons_self a t)),
      ih fun x hx => h x (List.mem_cons_of_mem a hx)]

theorem slots_of_window_eq_map (w : ScheduleWindow) (D : Nat) (hD : 0 < D) :
    slots_of_window w D =
      (List.range ((w.end_time - w.start_time) / D)).map fun i =>
        { start_time := w.start_time + i * D, end_time := w.start_time + i * D + D,
          duration := D } := by
  unfold slots_of_window
  refine filterMap_if_all (fun i => w.start_time + i * D + D ≤ w.end_time) _ _ ?_
  intro i hi
  rw [List.mem_range] at hi
  have h1 : i + 1 ≤ (w.end_time - w.start_time) / D := hi
  have h2 : (i + 1) * D ≤ w.end_time - w.start_time :=
    (Nat.le_div_iff_mul_le hD).mp h1
  have h3 : i * D + D ≤ w.end_time - w.start_time := by
    rw [Nat.succ_mul] at h2; exact h2
  omega

/-- C5: for a window of length `L = end - start` with `is_available = true`
and `start > now`, slot derivation with duration `D > 0` emits exactly
`L / D` slots of duration `D` at offsets `0, D, 2·D, …` from the window
start, pairwise non-overlapping and each inside the window; an unavailable
or already-begun window contributes no slots. -/
theorem get_available_slots_window_spec
    (w : ScheduleWindow) (now D : Nat) (hD : 0 < D)
    (hav : w.is_available = true) (hfut : now < w.start_time) :
    get_available_slots [w] now D =
      ((List.range ((w.end_time - w.start_time) / D)).map fun i =>
        { start_time := w.start_time + i * D, end_time := w.start_time + i * D + D,
          duration := D }) ∧
    (get_available_slots [w] now D).length = (w.end_time - w.start_time) / D ∧
    (∀ s ∈ get_available_slots [w] now D,
      s.duration = D ∧ w.start_time ≤ s.start_time ∧ s.end_time ≤ w.end_time ∧
      s.end_time = s.start_time + D) ∧
    (get_available_slots [w] now D).Pairwise (fun a b => ¬ slots_overlap a b) ∧
    (∀ w' : ScheduleWindow, w'.is_available = false ∨ w'.start_time ≤ now →
      get_available_slots [w'] now D = []) := by
  have hbase : get_available_slots [w] now D = slots_of_window w D := by
    unfold get_available_slots
    simp [hav, hfut]
  have hmap := slots_of_window_eq_map w D hD
  have hmain : get_available_slots [w] now D =
      (List.range ((w.end_time - w.start_time) / D)).map fun i =>
        { start_time := w.start_time + i * D, end_time := w.start_time + i * D + D,
          duration := D } := hbase.trans hmap
  refine ⟨hmain, ?_, ?_, ?_, ?_⟩
  · rw [hmain, List.length_map, List.length_range]
  · intro s hs
    rw [hmain, List.mem_map] at hs
    obtain ⟨i, hi, rfl⟩ := hs
    rw [List.mem_range] at hi
    have h2 : (i + 1) * D ≤ w.end_time - w.start_time :=
      (Nat.le_div_iff_mul_le hD).mp hi
    have h3 : i * D + D ≤ w.end_time - w.start_time := by
      rw [Nat.succ_mul] at h2; exact h2
    refine ⟨rfl, Nat.le_add_right _ _, ?_, rfl⟩
    show w.start_time + i * D + D ≤ w.end_time
    omega
  · rw [hmain]
    rw [List.pairwise_map]
    refine (List.pairwise_lt_range _).imp ?_
    intro i j hij
    intro hover
    obtain ⟨_, h2⟩ := hover
    simp only at h2
    have : (i + 1) * D ≤ j * D := Nat.mul_le_mul_right D hij
    rw [Nat.succ_mul] at this
    omega
  · intro w' hw'
    unfold get_available_slots
    rcases hw' with h | h
    · simp [h]
    · have : ¬ (w'.is_available ∧ now < w'.start_time) := by
        intro hc; exact absurd hc.2 (by omega)
      simp [this]

/-- Witness for C5 at the spec example window 09:00–10:30, duration 30. -/
theorem get_available_slots_window_spec_witness :
    0 < 30 ∧
    (get_available_slots [⟨540, 630, true⟩] 0 30).length = (630 - 540) / 30 :=
  ⟨by decide,
   (get_available_slots_window_spec ⟨540, 630, true⟩ 0 30 (by decide) rfl
     (by decide)).2.1⟩

/-! ## Stable sorting

Python's `sorted(..., key=k, reverse=True)` and `list.sort(...)` are stable:
elements with equal keys keep their input order, and `reverse=True` inverts
the key comparison without disturbing stability.  `sInsert`/`sSort` is the
stable insertion sort: `pred x y` reads "`x` may be placed before `y`", so an
element is inserted in front of the first already-placed element it may
precede; with `pred x y := key y ≤ key x` this is the stable descending
sort, with `pred x y := key x ≤ key y` the stable ascending sort. -/

def sInsert {α : Type} (pred : α → α → Bool) (x : α) : List α → List α
  | [] => [x]
  | y :: ys => if pred x y then x :: y :: ys else y :: sInsert pred x ys

def sSort {α : Type} (pred : α → α → Bool) : List α → List α
  | [] => []
  | x :: xs => sInsert pred x (sSort pred xs)

/-! ## Conflict resolution (`handle_conflicts`) -/

/-- An appointment candidate as consumed by `handle_conflicts`:
a dict with `start_time`, `end_time` and `priority`. -/
structure ApptRec where
  start_time : Nat
  end_time : Nat
  priority : Int
deriving DecidableEq, Repr

/-- `SchedulingAgent._check_overlap`: half-open interval overlap. -/
def check_overlap (appt1 appt2 : ApptRec) : Prop :=
  appt1.start_time < appt2.end_time ∧ appt2.start_time < appt1.end_time

instance (a b : ApptRec) : Decidable (check_overlap a b) := by
  unfold check_overlap; exact inferInstance

/-- The accumulation loop of `handle_conflicts`: walk the sorted candidates,
appending each to `resolved` unless it overlaps one already accepted. -/
def greedy_resolve (resolved : List ApptRec) : List ApptRec → List ApptRec
  | [] => resolved
  | appt :: rest =>
    if resolved.any fun r => decide (check_overlap appt r) then
      greedy_resolve resolved rest
    else
      greedy_resolve (resolved ++ [appt]) rest

/-- `SchedulingAgent.handle_conflicts`: stable sort by priority descending,
then greedily accept non-overlapping candidates. -/
def handle_conflicts (appointments : List ApptRec) : List ApptRec :=
  greedy_resolve []
    (sSort (fun x y => decide (y.priority ≤ x.priority)) appointments)

theorem check_overlap_symm {a b : ApptRec} (h : check_overlap a b) :
    check_overlap b a := ⟨h.2, h.1⟩

theorem greedy_resolve_pairwise (l : List ApptRec) :
    ∀ acc : List ApptRec, acc.Pairwise (fun a b => ¬ check_overlap a b) →
      (greedy_resolve acc l).Pairwise (fun a b => ¬ check_overlap a b) := by
  induction l with
  | nil => intro acc h; exact h
  | cons a rest ih =>
    intro acc h
    by_cases hc : (acc.any fun r => decide (check_overlap a r)) = true
    · rw [greedy_resolve, if_pos hc]
      exact ih acc h
    · rw [greedy_resolve, if_neg hc]
      refine ih (acc ++ [a]) ?_
      rw [List.pairwise_append]
      refine ⟨h, List.pairwise_singleton _ _, ?_⟩
      intro x hx y hy
      rw [List.mem_singleton] at hy
      subst hy
      intro hover
      exact hc (List.any_eq_true.mpr ⟨x, hx,
        decide_eq_true (check_overlap_symm hover)⟩)

/-- C4: the accepted subset is pairwise non-overlapping under the half-open
overlap test, and of two equal-priority overlapping candidates the one
appearing first in the input is the one accepted. -/
theorem handle_conflicts_spec :
    (∀ l : List ApptRec,
      (handle_conflicts l).Pairwise fun a b => ¬ check_overlap a b) ∧
    (∀ a b : ApptRec, a.priority = b.priority → check_overlap a b →
      handle_conflicts [a, b] = [a]) := by
  constructor
  · intro l
    exact greedy_resolve_pairwise _ [] List.Pairwise.nil
  · intro a b hp hover
    have hsort : sSort (fun x y => decide (y.priority ≤ x.priority)) [a, b]
        = [a, b] := by
      show sInsert _ a (sInsert _ b []) = [a, b]
      show sInsert _ a [b] = [a, b]
      rw [sInsert, if_pos (decide_eq_true (le_of_eq hp.symm))]
    rw [handle_conflicts, hsort]
    rw [greedy_resolve, if_neg (by simp)]
    rw [List.nil_append]
    rw [greedy_resolve,
      if_pos (List.any_eq_true.mpr
        ⟨a, List.mem_singleton_self a, decide_eq_true (check_overlap_symm hover)⟩)]
    rfl

/-- Witness for C4 at two overlapping equal-priority candidates. -/
theorem handle_conflicts_spec_witness :
    handle_conflicts [⟨0, 10, 1⟩, ⟨5, 15, 1⟩] = [⟨0, 10, 1⟩] :=
  handle_conflicts_spec.2 ⟨0, 10, 1⟩ ⟨5, 15, 1⟩ rfl (by decide)

/-! ## Persistent time slots and preference scoring -/

/-- A row of the `time_slots` table. -/
structure TimeSlotRec where
  id : Nat
  provider_id : Nat
  start_time : Nat
  end_time : Nat
  is_available : Bool
deriving DecidableEq, Repr

/-- A named time-of-day band. -/
inductive Band where
  | morning
  | afternoon
  | evening
deriving DecidableEq, Repr

/-- The `time_ranges` dict as written in `find_optimal_slot`, in minutes
after midnight: morning 09:00–12:00, afternoon 13:00–17:00, evening
17:00–20:00.  At runtime this dict is never constructed: `scheduler.py`
imports the `datetime` class, so `datetime.time(9, 0)` raises `TypeError`
(and the slot query on the line above raises even earlier); this
definition embeds the dict the source text describes. -/
def band_range : Band → Nat × Nat
  | .morning => (540, 720)
  | .afternoon => (780, 1020)
  | .evening => (1020, 1200)

/-- The in-band test in the scoring text of `find_optimal_slot`:
`start <= slot_time <= end` (never reached at runtime, see `band_range`). -/
def in_band (b : Band) (clock : Nat) : Prop :=
  (band_range b).1 ≤ clock ∧ clock ≤ (band_range b).2

instance (b : Band) (clock : Nat) : Decidable (in_band b clock) := by
  unfold in_band; exact inferInstance

/-- Outcome of the `preferred_time` parse described in
`find_optimal_slot`: either `strptime` yields a clock time (`exact`, in
minutes after midnight), or parsing fails and the scoring falls back to
the first band name (in the dict order morning, afternoon, evening)
occurring in the text, if any.  The parse sits after the raising query,
so it never actually runs. -/
inductive PreferredTime where
  | exact (clock : Nat)
  | bandText (first : Option Band)
deriving DecidableEq, Repr

/-- Absolute difference of two times in minutes. -/
def minutes_between (a b : Nat) : Nat := max a b - min a b

/-- The per-slot score the body of `find_optimal_slot` spells out
(scheduler.py lines 144–168).  Exact mode mirrors
`abs(combine(today, slot) - combine(today, preferred)).seconds / 3600`
(clock-minute difference, times 60 seconds, divided by 3600): the score is
`1 / (1 + time_diff_hours)`.  Band mode scores 1 inside the matched band,
and the leftover base score 0.5 otherwise.  The program never evaluates
this expression: the exact branch itself misuses the `datetime` class
(`datetime.date.today()` raises `AttributeError`), and every call already
raised at the slot query; this definition embeds the scoring the source
text describes, for comparison with the spec. -/
def slot_score (preferred : PreferredTime) (slot_clock : Nat) : ℚ :=
  match preferred with
  | .exact c => 1 / (1 + (minutes_between slot_clock c : ℚ) * 60 / 3600)
  | .bandText (some b) => if in_band b slot_clock then 1 else 0.5
  | .bandText none => 0.5

/-- The dict the scoring text of `find_optimal_slot` would return; at
runtime no such dict is ever produced. -/
structure OptSlot where
  slot_id : Nat
  provider_id : Nat
  start_time : Nat
  end_time : Nat
  score : ℚ
deriving DecidableEq, Repr

/-- `SchedulingAgent.find_optimal_slot` as it behaves at runtime.  The
module imports the `datetime` class, not the module, so the body raises
unconditionally: the query filter calls `.date()` on the `start_time`
column (`AttributeError` at scheduler.py line 116), and were it reached,
`datetime.time(9, 0)` (line 125) and `datetime.date.today()` (lines
152–153) would raise too.  The blanket `except Exception` prints the
error and returns `None`, so every call returns `None` and no slot is
ever scored. -/
def find_optimal_slot (db : List TimeSlotRec) (provider_id : Nat)
    (preferred_date : Nat) (preferred_time : PreferredTime) : Option OptSlot :=
  none

/-! ## `rank_slots` and `suggest_alternative_slots`

Both methods annotate the slot dicts of their input list in place before
sorting: `slot['score'] = …` and `slot['alternative_score'] = …`.  The
`…_updated` functions give the new values of the input records, in input
order; the main functions return the sorted view of those same records. -/

/-- The records of `available_slots` after `rank_slots` ran: when a
`preferred_time` clock is given, each gets `score = 1 / (1 + time_diff)`
where `time_diff` is the clock-minute difference; otherwise untouched. -/
def rank_slots_updated (available_slots : List SlotDict)
    (preferred_time : Option Nat) : List SlotDict :=
  match preferred_time with
  | some p => available_slots.map fun slot =>
      { slot with
        score := some (1 / (1 + (minutes_between (clockOf slot.start_time) p : ℚ))) }
  | none => available_slots

/-- `SchedulingAgent.rank_slots`: empty input gives `[]`; otherwise the
annotated records sorted by `score` (missing key reads 0) descending. -/
def rank_slots (available_slots : List SlotDict)
    (preferred_time : Option Nat) : List SlotDict :=
  if available_slots.isEmpty then []
  else
    sSort (fun x y => decide (y.score.getD 0 ≤ x.score.getD 0))
      (rank_slots_updated available_slots preferred_time)

/-- The records of `available_slots` after `suggest_alternative_slots`
ran: each gets `alternative_score = 1 / (1 + hours_difference)` where the
difference spans dates (`total_seconds / 3600`). -/
def suggest_alternative_slots_updated (unavailable_slot : SlotDict)
    (available_slots : List SlotDict) : List SlotDict :=
  available_slots.map fun slot =>
    { slot with
      alternative_score := some (1 / (1 +
        (minutes_between slot.start_time unavailable_slot.start_time : ℚ) * 60 / 3600)) }

/-- `SchedulingAgent.suggest_alternative_slots`: annotate, sort by
`alternative_score` descending, return the top 3. -/
def suggest_alternative_slots (unavailable_slot : SlotDict)
    (available_slots : List SlotDict) : List SlotDict :=
  (sSort (fun x y => decide (y.alternative_score.getD 0 ≤ x.alternative_score.getD 0))
    (suggest_alternative_slots_updated unavailable_slot available_slots)).take 3

/-- C6: the band scoring the source text spells out matches the claim —
inside the named band exactly 1, outside exactly 0.5, never 0 — but the
program never performs it: `find_optimal_slot` raises before (and while)
constructing `time_ranges` and its `except` returns `None` on every call,
so at runtime no slot is ever band-scored. -/
theorem slot_score_band_spec (b : Band) (clock : Nat) :
    (in_band b clock → slot_score (.bandText (some b)) clock = 1) ∧
    (¬ in_band b clock → slot_score (.bandText (some b)) clock = 0.5) ∧
    slot_score (.bandText (some b)) clock ≠ 0 ∧
    (∀ (db : List TimeSlotRec) (pid d : Nat) (pref : PreferredTime),
      find_optimal_slot db pid d pref = none) := by
  refine ⟨fun h => by simp [slot_score, h], fun h => by simp [slot_score, h],
    ?_, fun db pid d pref => rfl⟩
  by_cases h : in_band b clock
  · simp [slot_score, h]
  · norm_num [slot_score, h]

/-- Witness for C6 at the morning band: 10:00 (600 min) is in band and
the written scoring gives 1; 12:30 (750 min) is out of band and gives
0.5; yet the runtime function returns `None` on a store holding an
available in-band slot. -/
theorem slot_score_band_spec_witness :
    in_band .morning 600 ∧ slot_score (.bandText (some .morning)) 600 = 1 ∧
    ¬ in_band .morning 750 ∧ slot_score (.bandText (some .morning)) 750 = 0.5 ∧
    find_optimal_slot [⟨1, 1, 600, 630, true⟩] 1 0
      (.bandText (some .morning)) = none :=
  ⟨by decide, (slot_score_band_spec .morning 600).1 (by decide),
   by decide, (slot_score_band_spec .morning 750).2.1 (by decide),
   (slot_score_band_spec .morning 600).2.2.2 [⟨1, 1, 600, 630, true⟩] 1 0
     (.bandText (some .morning))⟩

/-- C2 counterexample: `rank_slots` is also an exact-time scorer (its
`preferred_time` is a clock time), but it assigns `1 / (1 + minutes)` with
no division by 60: at preference 09:10 (550) the slot starting 09:00 (540)
gets score 1/11, not `1 / (1 + 10/60) = 6/7`. -/
theorem exact_time_scoring_counterexample :
    ((rank_slots [⟨540, 570, 30, none, none⟩] (some 550)).map fun s => s.score)
      = [some (1 / 11)] ∧
    (1 / 11 : ℚ) ≠ 1 / (1 + (10 : ℚ) / 60) := by
  constructor
  · norm_num [rank_slots, rank_slots_updated, sSort, sInsert, clockOf,
      minutesPerDay, minutes_between]
  · norm_num

/-- C2 (amended): the exact-time scoring the program actually performs is
the one in `rank_slots`: every slot is scored `1 / (1 + minutes_difference)`
with no division by 60, equal to 1 at zero clock distance and strictly
decreasing in the distance.  The claimed `1 / (1 + minutes_difference/60)`
formula appears only in the never-executed scoring text of
`find_optimal_slot`, which raises internally and returns `None` on every
call. -/
theorem exact_time_scoring_spec :
    (∀ (slots : List SlotDict) (p : Nat),
      ((rank_slots_updated slots (some p)).map fun s => s.score) =
        slots.map fun s =>
          some (1 / (1 + (minutes_between (clockOf s.start_time) p : ℚ)))) ∧
    (∀ (s : SlotDict) (p : Nat), clockOf s.start_time = p →
      ((rank_slots_updated [s] (some p)).map fun s => s.score) = [some 1]) ∧
    (∀ (p : Nat) (s₁ s₂ : SlotDict),
      minutes_between (clockOf s₁.start_time) p <
        minutes_between (clockOf s₂.start_time) p →
      ∃ q₁ q₂ : ℚ,
        ((rank_slots_updated [s₁] (some p)).map fun s => s.score) = [some q₁] ∧
        ((rank_slots_updated [s₂] (some p)).map fun s => s.score) = [some q₂] ∧
        q₂ < q₁) ∧
    (∀ c t : Nat, slot_score (.exact c) t =
      1 / (1 + (minutes_between t c : ℚ) / 60)) ∧
    (∀ (db : List TimeSlotRec) (pid d : Nat) (pref : PreferredTime),
      find_optimal_slot db pid d pref = none) := by
  refine ⟨?_, ?_, ?_, ?_, fun db pid d pref => rfl⟩
  · intro slots p
    rw [rank_slots_updated, List.map_map]
    rfl
  · intro s p h
    have h0 : minutes_between (clockOf s.start_time) p = 0 := by
      rw [h]
      simp [minutes_between]
    norm_num [rank_slots_updated, h0]
  · intro p s₁ s₂ h
    refine ⟨1 / (1 + (minutes_between (clockOf s₁.start_time) p : ℚ)),
      1 / (1 + (minutes_between (clockOf s₂.start_time) p : ℚ)), rfl, rfl, ?_⟩
    have hd : (minutes_between (clockOf s₁.start_time) p : ℚ) <
        (minutes_between (clockOf s₂.start_time) p : ℚ) := by
      exact_mod_cast h
    have h₁ : (0 : ℚ) < 1 + (minutes_between (clockOf s₁.start_time) p : ℚ) := by
      positivity
    exact one_div_lt_one_div_of_lt h₁ (by linarith)
  · intro c t
    show (1 : ℚ) / (1 + (minutes_between t c : ℚ) * 60 / 3600) = _
    have : (minutes_between t c : ℚ) * 60 / 3600 = (minutes_between t c : ℚ) / 60 := by
      ring
    rw [this]

/-- Witness for C2 (amended) at preference 09:10: a slot at 09:10 scores
exactly 1, and a slot 10 minutes away ranks strictly above one 30 minutes
away. -/
theorem exact_time_scoring_spec_witness :
    clockOf 550 = 550 ∧
    ((rank_slots_updated [⟨550, 580, 30, none, none⟩] (some 550)).map
      fun s => s.score) = [some 1] ∧
    minutes_between (clockOf 540) 550 < minutes_between (clockOf 520) 550 ∧
    (∃ q₁ q₂ : ℚ,
      ((rank_slots_updated [⟨540, 570, 30, none, none⟩] (some 550)).map
        fun s => s.score) = [some q₁] ∧
      ((rank_slots_updated [⟨520, 550, 30, none, none⟩] (some 550)).map
        fun s => s.score) = [some q₂] ∧
      q₂ < q₁) :=
  ⟨by decide,
   exact_time_scoring_spec.2.1 ⟨550, 580, 30, none, none⟩ 550 (by decide),
   by decide,
   exact_time_scoring_spec.2.2.1 550 ⟨540, 570, 30, none, none⟩
     ⟨520, 550, 30, none, none⟩ (by decide)⟩

/-- C8 counterexample: the scoring passes are not read-only — both methods
write a score key into each input slot record.  The record
`{start 540, end 570, duration 30}` carries no score before the call and a
score afterwards. -/
theorem scoring_mutation_counterexample :
    rank_slots_updated [⟨540, 570, 30, none, none⟩] (some 550)
      ≠ [⟨540, 570, 30, none, none⟩] ∧
    suggest_alternative_slots_updated ⟨0, 30, 30, none, none⟩
      [⟨540, 570, 30, none, none⟩] ≠ [⟨540, 570, 30, none, none⟩] := by
  decide

theorem forall₂_map_self {α : Type} (f : α → α) (r : α → α → Prop)
    (h : ∀ a, r (f a) a) : ∀ l : List α, List.Forall₂ r (l.map f) l := by
  intro l
  induction l with
  | nil => exact List.Forall₂.nil
  | cons a t ih => exact List.Forall₂.cons (h a) ih

/-- C8 (amended): the scoring passes mutate each input record only by
writing its score annotation — `rank_slots` sets `score` (and only when a
preferred time is given), `suggest_alternative_slots` sets
`alternative_score` — while every other field is preserved and no record
is added or removed. -/
theorem scoring_frame_spec :
    (∀ slots : List SlotDict, rank_slots_updated slots none = slots) ∧
    (∀ (slots : List SlotDict) (p : Nat),
      List.Forall₂ (fun u s =>
        u.start_time = s.start_time ∧ u.end_time = s.end_time ∧
        u.duration = s.duration ∧ u.alternative_score = s.alternative_score ∧
        u.score = some (1 / (1 + (minutes_between (clockOf s.start_time) p : ℚ))))
        (rank_slots_updated slots (some p)) slots) ∧
    (∀ (unavailable_slot : SlotDict) (slots : List SlotDict),
      List.Forall₂ (fun u s =>
        u.start_time = s.start_time ∧ u.end_time = s.end_time ∧
        u.duration = s.duration ∧ u.score = s.score ∧
        u.alternative_score = some (1 / (1 +
          (minutes_between s.start_time unavailable_slot.start_time : ℚ) * 60 / 3600)))
        (suggest_alternative_slots_updated unavailable_slot slots) slots) := by
  refine ⟨fun slots => rfl, ?_, ?_⟩
  · intro slots p
    exact forall₂_map_self _ _ (fun a => ⟨rfl, rfl, rfl, rfl, rfl⟩) slots
  · intro unavailable_slot slots
    exact forall₂_map_self _ _ (fun a => ⟨rfl, rfl, rfl, rfl, rfl⟩) slots

theorem sSort_eq_self_of_all {α : Type} (pred : α → α → Bool) :
    ∀ l : List α, (∀ x ∈ l, ∀ y ∈ l, pred x y = true) → sSort pred l = l := by
  intro l
  induction l with
  | nil => intro _; rfl
  | cons a t ih =>
    intro h
    rw [sSort, ih fun x hx y hy =>
      h x (List.mem_cons_of_mem a hx) y (List.mem_cons_of_mem a hy)]
    cases t with
    | nil => rfl
    | cons b t₂ =>
      rw [sInsert, if_pos (h a (List.mem_cons_self a _) b
        (List.mem_cons_of_mem a (List.mem_cons_self b _)))]

/-- C10: with no `preferred_time` in the preferences, `rank_slots` assigns
no scores, every slot sorts with the default key 0 under the stable sort,
and the call returns the slots in their original input order. -/
theorem rank_slots_no_preference_id (slots : List SlotDict)
    (h : ∀ s ∈ slots, s.score = none) :
    rank_slots slots none = slots := by
  rw [rank_slots]
  cases slots with
  | nil => rfl
  | cons a t =>
    rw [if_neg (by simp)]
    show sSort _ (a :: t) = a :: t
    refine sSort_eq_self_of_all _ _ ?_
    intro x hx y hy
    rw [h x hx, h y hy]
    rfl

/-- Witness for C10 on two unscored slots given in a non-sorted order. -/
theorem rank_slots_no_preference_id_witness :
    rank_slots [⟨600, 630, 30, none, none⟩, ⟨540, 570, 30, none, none⟩] none
      = [⟨600, 630, 30, none, none⟩, ⟨540, 570, 30, none, none⟩] :=
  rank_slots_no_preference_id _ (by decide)

/-! ## Alternative search and suggestion -/

/-- A dict of the list built by `find_alternative_slots`. -/
structure AltSlot where
  slot_id : Nat
  provider_id : Nat
  start_time : Nat
  end_time : Nat
deriving DecidableEq, Repr

/-- `SchedulingAgent.find_alternative_slots`: query the provider's
available slots with `start_time` between `combine(preferred_date,
min.time)` and `combine(preferred_date + window_days, max.time)` — at
minute granularity, from minute 0 of the preferred date through minute
1439 of day `preferred_date + window_days` — ordered by start time
(stable on the table order), keeping at most 5. -/
def find_alternative_slots (db : List TimeSlotRec) (provider_id : Nat)
    (preferred_date : Nat) (window_days : Nat) : List AltSlot :=
  ((sSort (fun x y => decide (x.start_time ≤ y.start_time))
    (db.filter fun ts =>
      ts.provider_id == provider_id &&
      decide (preferred_date * minutesPerDay ≤ ts.start_time) &&
      decide (ts.start_time ≤
        (preferred_date + window_days) * minutesPerDay + (minutesPerDay - 1)) &&
      ts.is_available)).map fun ts =>
    AltSlot.mk ts.id provider_id ts.start_time ts.end_time).take 5

/-- The result dict of `suggest_slots`; keys the Python dict omits are
`none` / `[]` here. -/
structure SuggestResult where
  available : Bool
  slot : Option OptSlot
  message : String
  alternative_slots : List AltSlot
deriving DecidableEq, Repr

/-- The fallback branch of `suggest_slots` once no optimal slot scored
above the threshold. -/
def suggest_slots_fallback (db : List TimeSlotRec) (provider_id : Nat)
    (preferred_date : Nat) : SuggestResult :=
  if (find_alternative_slots db provider_id preferred_date 7).isEmpty then
    ⟨false, none,
     "Sorry, no available slots found. Please try a different date or provider.", []⟩
  else
    ⟨false, none, "Sorry, no available slots found for your preferred time.",
     find_alternative_slots db provider_id preferred_date 7⟩

/-- `SchedulingAgent.suggest_slots`: the optimal slot is returned as
available only when its score strictly exceeds 0.8; otherwise the 7-day
alternative lookup runs. -/
def suggest_slots (db : List TimeSlotRec) (provider_id : Nat)
    (preferred_date : Nat) (preferred_time : PreferredTime) : SuggestResult :=
  match find_optimal_slot db provider_id preferred_date preferred_time with
  | some optimal_slot =>
    if (0.8 : ℚ) < optimal_slot.score then
      ⟨true, some optimal_slot, "Found an available slot!", []⟩
    else suggest_slots_fallback db provider_id preferred_date
  | none => suggest_slots_fallback db provider_id preferred_date

/-- The `try/except` boundary of `suggest_slots`: a failed lookup is
downgraded to an unavailable result with an error message. -/
def suggest_slots_checked (lookup : Except Unit (List TimeSlotRec))
    (provider_id preferred_date : Nat) (preferred_time : PreferredTime) :
    SuggestResult :=
  match lookup with
  | .ok db => suggest_slots db provider_id preferred_date preferred_time
  | .error _ =>
    ⟨false, none, "An error occurred while searching for slots.", []⟩

/-! ### Sorting lemmas for `sSort` with a `Nat` key -/

theorem mem_sInsert {α : Type} (pred : α → α → Bool) (x : α) :
    ∀ (l : List α) (a : α), a ∈ sInsert pred x l ↔ a = x ∨ a ∈ l := by
  intro l
  induction l with
  | nil => intro a; simp [sInsert]
  | cons y ys ih =>
    intro a
    rw [sInsert]
    by_cases h : pred x y = true
    · rw [if_pos h]
      simp [or_comm, or_left_comm]
    · rw [if_neg h]
      simp only [List.mem_cons, ih a]
      tauto

theorem mem_sSort {α : Type} (pred : α → α → Bool) :
    ∀ (l : List α) (a : α), a ∈ sSort pred l ↔ a ∈ l := by
  intro l
  induction l with
  | nil => intro a; rfl
  | cons y ys ih =>
    intro a
    rw [sSort, mem_sInsert, ih, List.mem_cons]

theorem sInsert_pairwise_key {α : Type} (key : α → Nat) (x : α) :
    ∀ l : List α, l.Pairwise (fun a b => key a ≤ key b) →
      (sInsert (fun a b => decide (key a ≤ key b)) x l).Pairwise
        fun a b => key a ≤ key b := by
  intro l
  induction l with
  | nil => intro _; exact List.pairwise_singleton _ _
  | cons y ys ih =>
    intro h
    rw [List.pairwise_cons] at h
    rw [sInsert]
    by_cases hxy : key x ≤ key y
    · rw [if_pos (decide_eq_true hxy)]
      rw [List.pairwise_cons]
      refine ⟨?_, List.pairwise_cons.mpr h⟩
      intro z hz
      rcases List.mem_cons.mp hz with rfl | hz'
      · exact hxy
      · exact le_trans hxy (h.1 z hz')
    · rw [if_neg (by simpa using hxy)]
      rw [List.pairwise_cons]
      refine ⟨?_, ih h.2⟩
      intro z hz
      rcases (mem_sInsert _ x ys z).mp hz with rfl | hz'
      · omega
      · exact h.1 z hz'

theorem sSort_pairwise_key {α : Type} (key : α → Nat) :
    ∀ l : List α,
      (sSort (fun a b => decide (key a ≤ key b)) l).Pairwise
        fun a b => key a ≤ key b := by
  intro l
  induction l with
  | nil => exact List.Pairwise.nil
  | cons y ys ih => exact sInsert_pairwise_key key y _ ih

theorem suggest_slots_fallback_props (db : List TimeSlotRec) (pid d : Nat) :
    (suggest_slots_fallback db pid d).available = false ∧
    (suggest_slots_fallback db pid d).slot = none ∧
    (suggest_slots_fallback db pid d).alternative_slots =
      find_alternative_slots db pid d 7 := by
  rw [suggest_slots_fallback]
  by_cases h : (find_alternative_slots db pid d 7).isEmpty
  · rw [if_pos h]
    exact ⟨rfl, rfl, (List.isEmpty_iff.mp h).symm⟩
  · rw [if_neg h]
    exact ⟨rfl, rfl, rfl⟩

/-- C1: the claimed threshold behavior is the evident intent of the code,
but `find_optimal_slot` returns `None` on every call (its query raises
and the blanket `except` swallows the error), so `suggest_slots` can
never return `available = true`: every call falls through to the
alternative lookup.  At the spec's own example input — one available slot
09:00–09:30 on the preferred day and exact preference 09:10, which the
written scoring values at 6/7 > 0.8 — the program answers
`available = false` and offers the slot only as an alternative.  The live
alternative list always equals the windowed lookup: at most 5 slots,
ascending by start time, drawn from available slots of the provider
starting between minute 0 of the preferred date and minute 1439 of day
`preferred_date + 7` (8 calendar days, not 7). -/
theorem suggest_slots_threshold_bug :
    (∀ (db : List TimeSlotRec) (pid d : Nat) (pref : PreferredTime),
      (suggest_slots db pid d pref).available = false) ∧
    (∀ (db : List TimeSlotRec) (pid d : Nat) (pref : PreferredTime),
      (suggest_slots db pid d pref).alternative_slots =
        find_alternative_slots db pid d 7) ∧
    ((0.8 : ℚ) < slot_score (.exact 550) (clockOf 540) ∧
      suggest_slots [⟨1, 1, 540, 570, true⟩] 1 0 (.exact 550) =
        ⟨false, none,
         "Sorry, no available slots found for your preferred time.",
         [⟨1, 1, 540, 570⟩]⟩) ∧
    (∀ (db : List TimeSlotRec) (pid d : Nat),
      (find_alternative_slots db pid d 7).length ≤ 5) ∧
    (∀ (db : List TimeSlotRec) (pid d : Nat),
      (find_alternative_slots db pid d 7).Pairwise fun a b =>
        a.start_time ≤ b.start_time) ∧
    (∀ (db : List TimeSlotRec) (pid d : Nat),
      (find_alternative_slots db pid d 7).Forall fun a => ∃ ts,
        ts ∈ db ∧ ts.provider_id = pid ∧ ts.is_available = true ∧
        a = ⟨ts.id, pid, ts.start_time, ts.end_time⟩ ∧
        d * minutesPerDay ≤ ts.start_time ∧
        ts.start_time ≤ (d + 7) * minutesPerDay + (minutesPerDay - 1)) := by
  refine ⟨?_, ?_, ⟨?_, ?_⟩, ?_, ?_, ?_⟩
  · intro db pid d pref
    exact (suggest_slots_fallback_props db pid d).1
  · intro db pid d pref
    exact (suggest_slots_fallback_props db pid d).2.2
  · show (0.8 : ℚ) < 1 / (1 + (minutes_between (clockOf 540) 550 : ℚ) * 60 / 3600)
    norm_num [minutes_between, clockOf, minutesPerDay]
  · rfl
  · intro db pid d
    unfold find_alternative_slots
    rw [List.length_take]
    exact min_le_left _ _
  · intro db pid d
    unfold find_alternative_slots
    refine List.Pairwise.sublist (List.take_sublist _ _) ?_
    rw [List.pairwise_map]
    exact sSort_pairwise_key (fun ts : TimeSlotRec => ts.start_time) _
  · intro db pid d
    rw [List.forall_iff_forall_mem]
    intro a ha
    unfold find_alternative_slots at ha
    have ha' := List.take_subset 5 _ ha
    rw [List.mem_map] at ha'
    obtain ⟨ts, hts, rfl⟩ := ha'
    rw [mem_sSort, List.mem_filter] at hts
    obtain ⟨hmem, hcond⟩ := hts
    simp only [Bool.and_eq_true, beq_iff_eq, decide_eq_true_eq] at hcond
    exact ⟨ts, hmem, hcond.1.1.1, hcond.2, rfl, hcond.1.1.2, hcond.1.2⟩

/-- C7: when the provider has no available slot anywhere in the search
window, `suggest_slots` returns `available = false`, an empty alternative
list and the non-error no-slots message; a failed lookup at the
`try/except` boundary is downgraded to an `available = false` result with
the error message. -/
theorem suggest_slots_total_spec (db : List TimeSlotRec) (pid d : Nat)
    (pref : PreferredTime)
    (hnone : ∀ ts ∈ db, ¬(ts.provider_id = pid ∧ ts.is_available = true ∧
      d * minutesPerDay ≤ ts.start_time ∧
      ts.start_time ≤ (d + 7) * minutesPerDay + (minutesPerDay - 1))) :
    suggest_slots db pid d pref =
      ⟨false, none,
       "Sorry, no available slots found. Please try a different date or provider.",
       []⟩ ∧
    (suggest_slots db pid d pref).message ≠
      "An error occurred while searching for slots." ∧
    (∀ (pid' d' : Nat) (pref' : PreferredTime),
      suggest_slots_checked (.error ()) pid' d' pref' =
        ⟨false, none, "An error occurred while searching for slots.", []⟩) := by
  have halt : find_alternative_slots db pid d 7 = [] := by
    unfold find_alternative_slots
    have hfil : (db.filter fun ts =>
        ts.provider_id == pid &&
        decide (d * minutesPerDay ≤ ts.start_time) &&
        decide (ts.start_time ≤ (d + 7) * minutesPerDay + (minutesPerDay - 1)) &&
        ts.is_available) = [] := by
      rw [List.filter_eq_nil_iff]
      intro ts hts hcond
      simp only [Bool.and_eq_true, beq_iff_eq, decide_eq_true_eq] at hcond
      exact hnone ts hts ⟨hcond.1.1.1, hcond.2, hcond.1.1.2, hcond.1.2⟩
    rw [hfil]
    rfl
  have hmain : suggest_slots db pid d pref =
      ⟨false, none,
       "Sorry, no available slots found. Please try a different date or provider.",
       []⟩ := by
    have hfb : suggest_slots db pid d pref = suggest_slots_fallback db pid d :=
      rfl
    rw [hfb, suggest_slots_fallback, if_pos (by rw [halt]; rfl)]
  refine ⟨hmain, ?_, fun _ _ _ => rfl⟩
  rw [hmain]
  decide

/-- Witness for C7 with a store holding only a slot of another provider. -/
theorem suggest_slots_total_spec_witness :
    suggest_slots [⟨1, 2, 600, 630, true⟩] 1 0 (.bandText none) =
      ⟨false, none,
       "Sorry, no available slots found. Please try a different date or provider.",
       []⟩ :=
  (suggest_slots_total_spec [⟨1, 2, 600, 630, true⟩] 1 0 (.bandText none)
    (by decide)).1

/-! ## Booking (`book_appointment`)

The store is a record of table rows; the SQLAlchemy session's query /
add / commit sequence becomes explicit state passing.  `strftime` is
modelled at the granularity of the minute-based time model by the two
fixed formatters below: the claims need only that the returned details
are the formatted date and time of the slot plus the provider name. -/

structure UserRec where
  id : Nat
  name : String
  email : String
deriving DecidableEq, Repr

structure ProviderRec where
  id : Nat
  name : String
deriving DecidableEq, Repr

structure AppointmentRec where
  user_id : Nat
  provider_id : Nat
  datetime : Nat
  duration_minutes : Nat
  status : String
deriving DecidableEq, Repr

structure Db where
  users : List UserRec
  providers : List ProviderRec
  time_slots : List TimeSlotRec
  appointments : List AppointmentRec
deriving DecidableEq, Repr

/-- Models `slot.start_time.strftime('%Y-%m-%d')` over the day index. -/
def formatDate (t : Nat) : String := "day " ++ toString (dateOf t)

/-- Models `slot.start_time.strftime('%I:%M %p')` over the clock time. -/
def formatTime (t : Nat) : String :=
  toString (clockOf t / 60) ++ ":" ++ toString (clockOf t % 60)

structure BookingDetails where
  date : String
  time : String
  provider : String
deriving DecidableEq, Repr

/-- The dict returned by `book_appointment`. -/
structure BookResult where
  success : Bool
  message : String
  details : Option BookingDetails
deriving DecidableEq, Repr

/-- The create-or-get-user prologue of `book_appointment` (committed
before the slot is checked, so the user row persists even on failure). -/
def get_or_create_user (db : Db) (user_name user_email : String) :
    UserRec × Db :=
  match db.users.find? fun u => u.email == user_email with
  | some u => (u, db)
  | none =>
    let u : UserRec := ⟨db.users.length + 1, user_name, user_email⟩
    (u, { db with users := db.users ++ [u] })

/-- The committed store after a successful claim of `slot`: one appended
appointment and the slot's availability flag cleared. -/
def commit_booking (user : UserRec) (db2 : Db) (provider_id slot_id : Nat)
    (slot : TimeSlotRec) : Db :=
  { db2 with
    appointments := db2.appointments ++
      [⟨user.id, provider_id, slot.start_time, 30, "booked"⟩],
    time_slots := db2.time_slots.map fun s =>
      if s.id = slot_id then { s with is_available := false } else s }

/-- The body of `book_appointment` after the user row is settled. -/
def book_with_user (user : UserRec) (db2 : Db) (provider_id slot_id : Nat) :
    BookResult × Db :=
  match db2.time_slots.find? fun s => s.id == slot_id && s.is_available with
  | none => (⟨false, "Selected slot is no longer available", none⟩, db2)
  | some slot =>
    match db2.providers.find? fun p => p.id == slot.provider_id with
    | some provider =>
      (⟨true, "Appointment booked successfully!",
        some ⟨formatDate slot.start_time, formatTime slot.start_time,
              provider.name⟩⟩, commit_booking user db2 provider_id slot_id slot)
    | none =>
      (⟨false, "Error booking appointment", none⟩,
       commit_booking user db2 provider_id slot_id slot)

/-- `SchedulingAgent.book_appointment`: re-validate that the slot row is
still available; on failure return a structured result and leave the
appointments table untouched; on success append the appointment, flip the
slot's availability flag, commit, and build the details from the slot and
its provider.  A dangling provider relationship would raise after the
commit and be caught, returning a failure result over the committed
state. -/
def book_appointment (db : Db) (user_name user_email : String)
    (provider_id slot_id : Nat) : BookResult × Db :=
  book_with_user (get_or_create_user db user_name user_email).1
    (get_or_create_user db user_name user_email).2 provider_id slot_id

theorem get_or_create_user_frame (db : Db) (n e : String) :
    (get_or_create_user db n e).2.time_slots = db.time_slots ∧
    (get_or_create_user db n e).2.appointments = db.appointments ∧
    (get_or_create_user db n e).2.providers = db.providers := by
  unfold get_or_create_user
  cases db.users.find? fun u => u.email == e
  · exact ⟨rfl, rfl, rfl⟩
  · exact ⟨rfl, rfl, rfl⟩

/-- C3: `book_appointment` re-validates availability at commit time.  If
no slot row with the given id is still available, it returns the
structured failure (`success = false` with a message), creating no
appointment and touching no slot.  If the slot is found (and its provider
row exists), it returns `success = true` with details holding the
provider name and the formatted date and time, appends exactly one
appointment, and clears the slot's availability flag. -/
theorem book_appointment_spec (db : Db) (user_name user_email : String)
    (pid sid : Nat) :
    ((db.time_slots.find? fun s => s.id == sid && s.is_available) = none →
      (book_appointment db user_name user_email pid sid).1 =
        ⟨false, "Selected slot is no longer available", none⟩ ∧
      (book_appointment db user_name user_email pid sid).2.appointments =
        db.appointments ∧
      (book_appointment db user_name user_email pid sid).2.time_slots =
        db.time_slots) ∧
    (∀ slot : TimeSlotRec,
      (db.time_slots.find? fun s => s.id == sid && s.is_available) = some slot →
      ∀ provider : ProviderRec,
      (db.providers.find? fun p => p.id == slot.provider_id) = some provider →
      (book_appointment db user_name user_email pid sid).1 =
        ⟨true, "Appointment booked successfully!",
         some ⟨formatDate slot.start_time, formatTime slot.start_time,
               provider.name⟩⟩ ∧
      (∃ uid : Nat,
        (book_appointment db user_name user_email pid sid).2.appointments =
          db.appointments ++ [⟨uid, pid, slot.start_time, 30, "booked"⟩]) ∧
      (book_appointment db user_name user_email pid sid).2.time_slots =
        db.time_slots.map fun s =>
          if s.id = sid then { s with is_available := false } else s) := by
  have hframe := get_or_create_user_frame db user_name user_email
  constructor
  · intro hfind
    unfold book_appointment book_with_user
    rw [hframe.1, hfind]
    exact ⟨rfl, hframe.2.1, hframe.1⟩
  · intro slot hfind provider hprov
    unfold book_appointment book_with_user
    rw [hframe.1, hfind]
    dsimp only
    rw [hframe.2.2, hprov]
    dsimp only
    refine ⟨rfl, ⟨(get_or_create_user db user_name user_email).1.id, ?_⟩, ?_⟩
    · show (commit_booking _ _ _ _ _).appointments = _
      unfold commit_booking
      show (get_or_create_user db user_name user_email).2.appointments ++ _ = _
      rw [hframe.2.1]
    · show (commit_booking _ _ _ _ _).time_slots = _
      unfold commit_booking
      show ((get_or_create_user db user_name user_email).2.time_slots.map _) = _
      rw [hframe.1]

/-- Witness for C3: a store with one provider and one available slot; the
booking succeeds with the announced details, and a second booking of the
same (now claimed) slot fails without creating an appointment. -/
theorem book_appointment_spec_witness :
    (book_appointment ⟨[], [⟨1, "Dr. Smith"⟩], [⟨1, 1, 600, 630, true⟩], []⟩
        "User" "user@example.com" 1 1).1 =
      ⟨true, "Appointment booked successfully!",
       some ⟨formatDate 600, formatTime 600, "Dr. Smith"⟩⟩ ∧
    (book_appointment ⟨[], [⟨1, "Dr. Smith"⟩], [⟨1, 1, 600, 630, false⟩], []⟩
        "User" "user@example.com" 1 1).1 =
      ⟨false, "Selected slot is no longer available", none⟩ ∧
    (book_appointment ⟨[], [⟨1, "Dr. Smith"⟩], [⟨1, 1, 600, 630, false⟩], []⟩
        "User" "user@example.com" 1 1).2.appointments = [] :=
  ⟨((book_appointment_spec ⟨[], [⟨1, "Dr. Smith"⟩], [⟨1, 1, 600, 630, true⟩], []⟩
      "User" "user@example.com" 1 1).2 ⟨1, 1, 600, 630, true⟩ rfl
      ⟨1, "Dr. Smith"⟩ rfl).1,
   ((book_appointment_spec ⟨[], [⟨1, "Dr. Smith"⟩], [⟨1, 1, 600, 630, false⟩], []⟩
      "User" "user@example.com" 1 1).1 rfl).1,
   ((book_appointment_spec ⟨[], [⟨1, "Dr. Smith"⟩], [⟨1, 1, 600, 630, false⟩], []⟩
      "User" "user@example.com" 1 1).1 rfl).2.1⟩

/-! ## Provider extraction from an utterance
(`VoiceHandler.extract_appointment_details`, provider part)

Python's `str.split(sep)` is modelled character by character with a fuel
bound (the fuel is the text length plus one, and every step consumes at
least one character, so the fuel never runs out on the inputs used);
`str.split()` with no argument is modelled for space-separated utterances
as splitting on a space and dropping empty pieces, and `str.strip()` as
trimming spaces at both ends. -/

/-- `splitL sep fuel s acc`: split `s` on every occurrence of `sep`,
left to right, `acc` holding the current piece reversed. -/
def splitL (sep : List Char) : Nat → List Char → List Char → List (List Char)
  | _, [], acc => [acc.reverse]
  | 0, s, acc => [acc.reverse ++ s]
  | fuel + 1, c :: rest, acc =>
    if sep.isPrefixOf (c :: rest) then
      acc.reverse :: splitL sep fuel (List.drop sep.length (c :: rest)) []
    else
      splitL sep fuel rest (c :: acc)

/-- Python `s.split(sep)` for a non-empty separator. -/
def py_split (s sep : String) : List String :=
  (splitL sep.toList (s.toList.length + 1) s.toList []).map fun cs =>
    String.mk cs

/-- Python `s.split()` on space-separated text. -/
def py_split_ws (s : String) : List String :=
  (py_split s " ").filter fun w => w ≠ ""

/-- Python `s.strip()` on space-padded text. -/
def py_strip (s : String) : String :=
  String.mk (((s.toList.dropWhile fun c => c = ' ').reverse.dropWhile
    fun c => c = ' ').reverse)

/-- Outcome of the provider-extraction fragment: a provider string, the
prompt-for-provider failure (`"Please specify a doctor"` message), or the
`except` branch (an `IndexError` on `split()[0]`, caught and answered with
the generic could-not-understand message). -/
inductive ProviderExtract where
  | ok (provider : String)
  | promptProvider
  | caughtError
deriving DecidableEq, Repr

/-- The provider-extraction fragment of `extract_appointment_details`:
`provider` is set only when `'with' in text`, to the first whitespace
word after the first `'with'`; when that word contains `'dr'`, the
provider becomes `"Dr. "` prepended to everything after the first `'dr'`
of the post-`'with'` text, stripped.  With no `'with'` in the text the
result is the prompt for a provider name. -/
def extract_provider (text : String) : ProviderExtract :=
  if 1 < (py_split text "with").length then
    match py_split_ws ((py_split text "with").getD 1 "") with
    | [] => .caughtError
    | firstWord :: _ =>
      if 1 < (py_split firstWord "dr").length then
        .ok ("Dr. " ++
          py_strip ((py_split ((py_split text "with").getD 1 "") "dr").getD 1 ""))
      else .ok firstWord
  else .promptProvider

/-- C9 counterexample: the utterance names the provider after the word
"for", which the claim lists as a trigger, yet extraction returns the
prompt-for-provider failure — only "with" triggers in this path. -/
theorem extract_provider_counterexample :
    1 < (py_split "book an appointment for dr smith tomorrow morning" "for").length ∧
    extract_provider "book an appointment for dr smith tomorrow morning" =
      .promptProvider := by
  constructor
  · decide
  · decide

/-- C9 (amended): the voice-path extraction triggers on the word "with"
only (the companion text-command path accepts "with"/"for" through a
regex requiring a dotted title).  With no "with" in the text it returns
the failure result prompting for the provider name instead of raising;
with "with" present it takes the first word after "with", and when that
word contains "dr" it normalizes to the form `"Dr. " ++ rest`, where
`rest` is everything after the first "dr" of the post-"with" text,
stripped. -/
theorem extract_provider_spec :
    (∀ text : String, ¬ 1 < (py_split text "with").length →
      extract_provider text = .promptProvider) ∧
    (∀ (text firstWord : String) (rest : List String),
      1 < (py_split text "with").length →
      py_split_ws ((py_split text "with").getD 1 "") = firstWord :: rest →
      1 < (py_split firstWord "dr").length →
      extract_provider text =
        .ok ("Dr. " ++
          py_strip ((py_split ((py_split text "with").getD 1 "") "dr").getD 1 ""))) ∧
    (∀ (text firstWord : String) (rest : List String),
      1 < (py_split text "with").length →
      py_split_ws ((py_split text "with").getD 1 "") = firstWord :: rest →
      ¬ 1 < (py_split firstWord "dr").length →
      extract_provider text = .ok firstWord) := by
  refine ⟨?_, ?_, ?_⟩
  · intro text h
    unfold extract_provider
    rw [if_neg h]
  · intro text firstWord rest h hw hdr
    unfold extract_provider
    rw [if_pos h, hw]
    dsimp only
    rw [if_pos hdr]
  · intro text firstWord rest h hw hdr
    unfold extract_provider
    rw [if_pos h, hw]
    dsimp only
    rw [if_neg hdr]

/-- Witness for C9 (amended) on "book with dr smith tomorrow": the
extraction normalizes to a "Dr. "-prefixed provider. -/
theorem extract_provider_spec_witness :
    extract_provider "book with dr smith tomorrow" = .ok "Dr. smith tomorrow" := by
  have h := extract_provider_spec.2.1 "book with dr smith tomorrow" "dr"
    ["smith", "tomorrow"] (by decide) (by decide) (by decide)
  rw [h]
  decide

end Scheduler
